import Mathlib

/-!
Verification development for the ts-mono repository (tsmr / ts-monorepo).

JavaScript strings are modelled as `List Char` (named `Chars` below), and the
string operations used by the source (split, join, includes, replace,
replaceAll, startsWith, endsWith, trimStart) are defined to match JavaScript
semantics.  Node path helpers (`path.join`, `path.parse(...).ext`,
`path.basename`, `path.dirname`) are modelled on '/'-separated paths, and the
filesystem is an association list from path to content.
-/

/-- JavaScript strings as lists of characters. -/
abbrev Chars := List Char

/-- JavaScript property access on a plain object modelled as an association
list: returns the value of the first binding of the key, if any.  Keys are
unique in the objects built by the source, so first-match equals the JS
semantics. -/
def jsLookup {α : Type} (k : Chars) : List (Chars × α) → Option α
  | [] => none
  | (k', v) :: rest => if k' = k then some v else jsLookup k rest

/-- Whether `pat` occurs at the head of `s` (used for substring search). -/
def leadsWith : Chars → Chars → Bool
  | [], _ => true
  | _ :: _, [] => false
  | p :: ps, c :: cs => p = c && leadsWith ps cs

/-- First occurrence of `pat` in `s`, returned as the split
`s = pre ++ pat ++ post` (JavaScript `indexOf` semantics); `none` when `pat`
does not occur. -/
def splitFirst (pat : Chars) : Chars → Option (Chars × Chars)
  | [] => if pat = [] then some ([], []) else none
  | c :: rest =>
    if leadsWith pat (c :: rest) then some ([], (c :: rest).drop pat.length)
    else (splitFirst pat rest).map (fun pr => (c :: pr.1, pr.2))

/-- JavaScript `s.includes(pat)`. -/
def containsSub (pat s : Chars) : Bool := (splitFirst pat s).isSome

/-- JavaScript `s.replace(pat, repl)` with a plain-string pattern: replaces
only the first occurrence. -/
def replaceFirst (s pat repl : Chars) : Chars :=
  match splitFirst pat s with
  | none => s
  | some (pre, post) => pre ++ repl ++ post

/-- Fuelled worker for `replaceAll`; the fuel is an upper bound on the number
of characters still to scan, so it never runs out when started at the input's
length. -/
def replaceAllFuel (pat repl : Chars) : Nat → Chars → Chars
  | 0, s => s
  | _ + 1, [] => []
  | fuel + 1, c :: rest =>
    if leadsWith pat (c :: rest) && !pat.isEmpty then
      repl ++ replaceAllFuel pat repl fuel ((c :: rest).drop pat.length)
    else
      c :: replaceAllFuel pat repl fuel rest

/-- JavaScript `s.replaceAll(pat, repl)`: non-overlapping left-to-right
replacement of every occurrence. -/
def replaceAll (pat repl s : Chars) : Chars :=
  replaceAllFuel pat repl s.length s

/-- JavaScript `s.split(sep)` for a single-character separator. -/
def splitChars (sep : Char) : Chars → List Chars
  | [] => [[]]
  | c :: rest =>
    if c = sep then [] :: splitChars sep rest
    else
      match splitChars sep rest with
      | [] => [[c]]
      | l :: ls => (c :: l) :: ls

/-- JavaScript `parts.join(sep)` for a single-character separator. -/
def joinChars (sep : Char) : List Chars → Chars
  | [] => []
  | [l] => l
  | l :: ls => l ++ sep :: joinChars sep ls

/-- JavaScript `s.startsWith(p)` for a one-character p. -/
def beginsWith (c : Char) : Chars → Bool
  | [] => false
  | c' :: _ => c' = c

/-- JavaScript `s.endsWith(pat)`. -/
def trailsWith (pat s : Chars) : Bool := leadsWith pat.reverse s.reverse

/-- JavaScript whitespace characters (the ASCII ones relevant here). -/
def isJsSpace (c : Char) : Bool :=
  c = ' ' || c = '\t' || c = '\n' || c = '\r' || c = '\x0b' || c = '\x0c'

/-- JavaScript `s.trimStart()`. -/
def trimStartWs (s : Chars) : Chars := s.dropWhile isJsSpace

/-- Node `path.basename`: the final '/'-separated segment. -/
def baseNameOf (p : Chars) : Chars := (splitChars '/' p).getLast!

/-- Node `path.dirname` on the well-formed paths used by the source. -/
def dirNameOf (p : Chars) : Chars :=
  let segs := splitChars '/' p
  if segs.length ≤ 1 then ['.']
  else
    let joined := joinChars '/' segs.dropLast
    if joined = [] then ['/'] else joined

/-- The extension of a base name, as computed by Node `path.parse`: the
substring from the final dot, empty when there is no dot or the dot is the
first character. -/
def extOfBase (base : Chars) : Chars :=
  let pre := base.reverse.takeWhile (fun c => c ≠ '.')
  if pre.length = base.length then []
  else if pre.length + 1 = base.length then []
  else '.' :: pre.reverse

/-- Node `path.parse(p).ext`. -/
def extOf (p : Chars) : Chars := extOfBase (baseNameOf p)

/-- A relative path's leading `./`, stripped by Node `path.join`. -/
def stripDotSlash (b : Chars) : Chars :=
  if b.take 2 = ['.', '/'] then b.drop 2 else b

/-- Node `path.join(a, b)` on the well-formed inputs used by the source. -/
def pathJoin (a b : Chars) : Chars := a ++ '/' :: stripDotSlash b

/-- The filesystem seen by the patched readers: an association list from file
path to file content. -/
structure FileSys where
  files : List (Chars × Chars)

/-- The real (unpatched) `fs.readFileSync`: `none` models a thrown
file-not-found error. -/
def readFile (fsys : FileSys) (p : Chars) : Option Chars := jsLookup p fsys.files

/-- The real (unpatched) `fs.existsSync` for the file paths the patched
readers probe. -/
def fileExists (fsys : FileSys) (p : Chars) : Bool := (readFile fsys p).isSome

/-! ## Package registry and readiness gate
(`src/packages/tsmr/src/utils/package.ts`, `src/utils/typecheck.ts`) -/

/-- Filesystem view used by the readiness gate: the set of existing
directories, and the parsed JSON object stored in each `metadata.json` file
(flat objects with boolean fields are the only shape the source reads or
writes, and `JSON.parse` inverts `JSON.stringify` on them). -/
structure PkgFs where
  dirs : List Chars
  metadataFiles : List (Chars × List (Chars × Bool))

/-- `fs.existsSync` over a `PkgFs`. -/
def pkgExists (fsys : PkgFs) (p : Chars) : Bool :=
  fsys.dirs.contains p || (jsLookup p fsys.metadataFiles).isSome

def nodeModulesName : Chars := "node_modules".data

def metadataJsonName : Chars := "metadata.json".data

/-- The object written by the installer gate
(`setupLintAndTypecheck`, typecheck.ts line 189):
`JSON.stringify({ ignoredScripts: true })`. -/
def installerGateMarker : List (Chars × Bool) := [("ignoredScripts".data, true)]

/-- The field read back by the gate (`shouldPackageBeChecked`,
package.ts line 100): `metadata.ignoreScripts`. -/
def ignoreScriptsKey : Chars := "ignoreScripts".data

/-- `shouldPackageBeChecked` (package.ts lines 87-106): false when the
package's `node_modules` is absent; false when `node_modules/metadata.json`
exists and its `ignoreScripts` field is truthy; true otherwise. -/
def shouldPackageBeChecked (fsys : PkgFs) (packageDir : Chars) : Bool :=
  let nodeModulesPath := pathJoin packageDir nodeModulesName
  let metadataPath := pathJoin nodeModulesPath metadataJsonName
  if !pkgExists fsys nodeModulesPath then false
  else
    match jsLookup metadataPath fsys.metadataFiles with
    | some metadata =>
      if (jsLookup ignoreScriptsKey metadata).getD false then false else true
    | none => true

/-- A workspace package's manifest fields used by the installer gate. -/
structure PkgInfo where
  slug : Chars
  dir : Chars
  dependencies : List (Chars × Chars)
  devDependencies : List (Chars × Chars)
  peerDependencies : List (Chars × Chars)
deriving DecidableEq

/-- `Object.keys(packageJson.dependencies ?? {}).length === 0 && ...` for all
three dependency maps (typecheck.ts lines 145-151). -/
def hasNoDeclaredDeps (p : PkgInfo) : Bool :=
  p.dependencies.length = 0 && p.devDependencies.length = 0 &&
    p.peerDependencies.length = 0

/-- The packages recorded for installation by `setupLintAndTypecheck`
(typecheck.ts lines 138-155): those without a `node_modules` directory that
declare at least one dependency of some kind. -/
def packagesWithoutNodeModules (fsys : PkgFs) (pkgs : List PkgInfo) :
    List PkgInfo :=
  pkgs.filter fun p =>
    !pkgExists fsys (pathJoin p.dir nodeModulesName) && !hasNoDeclaredDeps p

/-- The slugs pushed onto `packageSlugsWithoutNodeModules` by
`setupLintAndTypecheck`. -/
def packageSlugsWithoutNodeModules (fsys : PkgFs) (pkgs : List PkgInfo) :
    List Chars :=
  (packagesWithoutNodeModules fsys pkgs).map (·.slug)

/-! ## Slug registry (`src/packages/tsmr/src/utils/package.ts`) -/

/-- A workspace package as returned by `findWorkspacePackages`: its directory
and its manifest's `name` field (possibly absent). -/
structure Project where
  dir : Chars
  manifestName : Option Chars
deriving DecidableEq

/-- `getPackageSlug` (package.ts lines 18-19):
`packageName.split('/').at(-1)!`. -/
def getPackageSlug (packageName : Chars) : Chars :=
  (splitChars '/' packageName).getLast!

/-- JavaScript object assignment `map[key] = value`: overwrites the existing
binding in place, or appends a new one. -/
def recordSet {α : Type} (m : List (Chars × α)) (k : Chars) (v : α) :
    List (Chars × α) :=
  match m with
  | [] => [(k, v)]
  | (k', v') :: rest =>
    if k' = k then (k', v) :: rest else (k', v') :: recordSet rest k v

/-- The loop body of `getWorkspacePackageSlugsMap` (package.ts lines 21-36):
for each package, `invariant(packageName)` (modelled as an error naming the
package directory), then `workspacePackageSlugsMap[packageSlug] =
workspacePackage`. -/
def buildSlugsMapAux (acc : List (Chars × Project)) :
    List Project → Except Chars (List (Chars × Project))
  | [] => Except.ok acc
  | wp :: rest =>
    match wp.manifestName with
    | none => Except.error wp.dir
    | some packageName =>
      buildSlugsMapAux (recordSet acc (getPackageSlug packageName) wp) rest

/-- `getWorkspacePackageSlugsMap` (package.ts lines 21-36). -/
def getWorkspacePackageSlugsMap (pkgs : List Project) :
    Except Chars (List (Chars × Project)) :=
  buildSlugsMapAux [] pkgs

/-- `getPackageDir` (package.ts lines 71-76): looks the slug up in the map and
fails with the `invariant` message when it is absent. -/
def getPackageDirE (m : List (Chars × Project)) (packageSlug : Chars) :
    Except Chars Chars :=
  match jsLookup packageSlug m with
  | some wp => Except.ok wp.dir
  | none => Except.error packageSlug

/-- The manifest-name predicate matched by a slug: the package has a name
whose final '/'-separated segment is `s`. -/
def slugMatches (s : Chars) (p : Project) : Bool :=
  match p.manifestName with
  | some packageName => getPackageSlug packageName = s
  | none => false

/-! ## The `patchEslint` guard (`src/packages/tsmr/src/utils/eslint.cts`
lines 8-12) -/

/-- The state of the `fs` module object and of the process-wide symbol
allocator.  A JavaScript `Symbol(desc)` call yields a value distinct from
every symbol created before, modelled by a counter; `wrapDepth` counts
how many wrappers have been installed around the real `fs.readFileSync`
(and `existsSync`/`statSync`, which are wrapped together with it). -/
structure PatchState where
  markedSymbols : List Nat
  wrapDepth : Nat
  nextSymbolId : Nat

/-- A fresh process: no marks on `fs`, no wrappers installed. -/
def initialPatchState : PatchState := ⟨[], 0, 0⟩

/-- One call to `patchEslint` (eslint.cts lines 8-12):
`const tsMonorepoPatchedSymbol = Symbol('tsmr-patched')` creates a fresh
symbol, then `if (!(fs)[tsMonorepoPatchedSymbol])` tests whether that very
symbol is already set on `fs`, and if not, marks it and installs the
wrappers around the current `fs` functions. -/
def patchEslintCall (s : PatchState) : PatchState :=
  let sym := s.nextSymbolId
  let s := { s with nextSymbolId := s.nextSymbolId + 1 }
  if s.markedSymbols.contains sym then s
  else
    { s with
      markedSymbols := sym :: s.markedSymbols
      wrapDepth := s.wrapDepth + 1 }

/-- Iterated calls to `patchEslint` in one process. -/
def patchEslintCalls (n : Nat) (s : PatchState) : PatchState :=
  match n with
  | 0 => s
  | n + 1 => patchEslintCalls n (patchEslintCall s)

/-! ## Exit-code plumbing (`src/packages/tsmr/src/utils/typecheck.ts` and the
third-generation variant carried alongside `src/packages/tsmr/src/bin/tsmr.ts`) -/

/-- The argument the external compiler passes to the intercepted
`process.exit`; `process.exit()` with no argument defaults to `0`
(`(exitCode = 0) => ...`). -/
def resolvedExitCode (exitArg : Option Nat) : Nat := exitArg.getD 0

/-- `buildTypecheckFolder` of `src/packages/tsmr/src/utils/typecheck.ts`
(lines 204-276): returns `exitCodePromise`, i.e. the compiler's own exit
code. -/
def buildTypecheckFolderExitTsmr (tscExitArg : Option Nat) : Nat :=
  resolvedExitCode tscExitArg

/-- `buildTypecheckFolder` of the third-generation variant (the related file
carried with `bin/tsmr.ts`, lines 775-927): awaits `exitCodePromise` and then
`return { exitCode: 0 }` unconditionally. -/
def buildTypecheckFolderExitV3 (tscExitArg : Option Nat) : Nat :=
  let _awaited := resolvedExitCode tscExitArg
  0

/-- `typecheck` (full validation) of both generations: returns
`exitCodePromise`, the compiler's real exit code. -/
def typecheckExit (tscExitArg : Option Nat) : Nat :=
  resolvedExitCode tscExitArg

/-- The `tsmr typecheck` command action (bin/tsmr.ts lines 83-104):
skips with exit 0 when the gate reports not-to-check, otherwise exits with
`result?.exitCode ?? 0`. -/
def typecheckCommandExit (gateSaysCheck : Bool) (tscExitArg : Option Nat) :
    Nat :=
  if !gateSaysCheck then 0 else typecheckExit tscExitArg

/-! ## The narrow interception (`ts.sys.readFile` wrapper)
(`src/packages/ts-monorepo/src/utils/eslint.cts` lines 17-24, and the code
injected by `patchTypescript` in `src/packages/tsmr/src/utils/eslint.cts`
lines 19-30 — both have the same body) -/

/-- One call to the wrapped `ts.sys.readFile`.  The delegate models the real
read: `Except.ok` is a normal return (`string | undefined`), `Except.error`
a thrown error.  The wrapper sets the context cell to the requested path,
delegates, sets the cell to `null`, and returns; a thrown error propagates
before the clearing assignment runs. -/
def narrowReadFile (delegate : Chars → Except Chars (Option Chars))
    (p : Chars) (ctx0 : Option Chars) :
    Except Chars (Option Chars) × Option Chars :=
  let _entered := ctx0
  match delegate p with
  | Except.ok file => (Except.ok file, none)
  | Except.error e => (Except.error e, some p)

/-! ## The generic interception (`src/packages/tsmr/src/utils/eslint.cts`
lines 19-137) -/

def tsLibSuffix : Chars := "/node_modules/typescript/lib/typescript.js".data

def nodeModulesSeg : Chars := "/node_modules/".data

def readFileAnchor : Chars := "readFile: readFile".data

/-- The wrapper text injected into `typescript.js` by `patchTypescript`
(eslint.cts lines 22-29, after `outdent` strips the common indentation). -/
def injectedReadFileText : Chars :=
  ("readFile: (...args) => \x7b\n\tglobalThis.currentTypescriptSourceFile = args[0]\n\tconst file = readFile(...args)\n\tglobalThis.currentTypescriptSourceFile = null\n\treturn file\n\x7d").data

/-- `patchTypescript` (eslint.cts lines 19-30):
`fileContents.replace('readFile: readFile', ...)` — first occurrence only. -/
def patchTypescript (fileContents : Chars) : Chars :=
  replaceFirst fileContents readFileAnchor injectedReadFileText

def tsconfigLintName : Chars := "tsconfig.lint.json".data

def tsconfigName : Chars := "tsconfig.json".data

def tsconfigTypecheckName : Chars := "tsconfig.typecheck.json".data

/-- The synthesized content returned for a stubbed `tsconfig.lint.json`
(eslint.cts lines 87-93, after `outdent`). -/
def stubTsconfigLintText : Chars :=
  ("\x7b\n\t\x22extends\x22: \x22./tsconfig.json\x22,\n\t\x22include\x22: [\x22.*\x22, \x22*.*\x22, \x22**/*.*\x22, \x22**/.*\x22]\n\x7d").data

/-- `shouldStubTsconfigLintJson` (eslint.cts lines 37-47): the base name is
`tsconfig.lint.json`, the file itself does not exist, and a `tsconfig.json`
exists beside it. -/
def shouldStubTsconfigLintJson (fsys : FileSys) (filePath : Chars) : Bool :=
  if baseNameOf filePath ≠ tsconfigLintName then false
  else
    !fileExists fsys filePath &&
      fileExists fsys (pathJoin (dirNameOf filePath) tsconfigName)

/-- The patched `fs.existsSync` (eslint.cts lines 59-69). -/
def patchedExistsSync (fsys : FileSys) (p : Chars) : Bool :=
  if shouldStubTsconfigLintJson fsys p then true else fileExists fsys p

/-- Worker for `findUp`: the directory's segments in reverse (deepest
first); each step probes the current directory and then discards its deepest
segment. -/
def findUpRev (fsys : FileSys) (name : Chars) : List Chars → Option Chars
  | [] => none
  | seg :: rest =>
    let cand := pathJoin (joinChars '/' (seg :: rest).reverse) name
    if fileExists fsys cand then some cand
    else findUpRev fsys name rest

/-- `findUp.sync(name, { cwd: dir })`: walk upward from `dir` and return the
first existing `name`, if any. -/
def findUp (fsys : FileSys) (name : Chars) (dir : Chars) : Option Chars :=
  findUpRev fsys name (splitChars '/' dir).reverse

/-- The recognized TypeScript source extensions (eslint.cts line 71). -/
def tsExtensions : List Chars :=
  [".ts".data, ".tsx".data, ".cts".data, ".mts".data]

/-- The patched `fs.readFileSync` installed by `patchEslint`
(eslint.cts lines 72-137).  `ctx` is the process-wide
`globalThis.currentTypescriptSourceFile`; `replacer` is the memoized
`tsc-alias-sync` single-file replacer, as a function of the resolved
configuration path and the file contents (memoizing a pure factory is
semantically the factory itself). -/
def patchEslintReadFileSync (fsys : FileSys) (ctx : Option Chars)
    (replacer : Chars → Chars → Chars) (p : Chars) : Option Chars :=
  if trailsWith tsLibSuffix p then (readFile fsys p).map patchTypescript
  else if containsSub nodeModulesSeg p then readFile fsys p
  else if shouldStubTsconfigLintJson fsys p then some stubTsconfigLintText
  else if ctx == some p && tsExtensions.contains (extOf p) then
    match findUp fsys tsconfigName (dirNameOf p) with
    | none => readFile fsys p
    | some tsConfigPath =>
      let tsconfigTypecheckPath :=
        pathJoin (dirNameOf tsConfigPath) tsconfigTypecheckName
      let cfg :=
        if patchedExistsSync fsys tsconfigTypecheckPath then
          tsconfigTypecheckPath
        else tsConfigPath
      (readFile fsys p).map (replacer cfg)
  else readFile fsys p

/-! ## The full-validation interception (`typecheck` in
`src/packages/tsmr/src/utils/typecheck.ts` lines 23-125) -/

/-- A manifest `exports` entry value: `null`, a string, or an object whose
string fields include an optional `types` key. -/
inductive ExportsEntryVal : Type
  | nullV
  | strV (s : Chars)
  | objV (fields : List (Chars × Chars))
deriving DecidableEq

/-- A manifest `exports` property: absent (or `null`), a bare string, an
array (unsupported, fatal), or an object. -/
inductive PackageExportsVal : Type
  | absent
  | strTop (s : Chars)
  | arrTop
  | objTop (entries : List (Chars × ExportsEntryVal))
deriving DecidableEq

def typesKey : Chars := "types".data

/-- The entry-point paths one package contributes to `filePathsToBePatched`
(typecheck.ts lines 34-76); `none` models the fatal `process.exit(1)` on an
array-shaped `exports`. -/
def entryPointPathsOf (packageDir : Chars) :
    PackageExportsVal → Option (List Chars)
  | PackageExportsVal.arrTop => none
  | PackageExportsVal.absent => some []
  | PackageExportsVal.strTop _ => some []
  | PackageExportsVal.objTop entries =>
    some <|
      if (entries.head?.map fun kv => beginsWith '.' kv.1).getD false then
        entries.foldr
          (fun kv acc =>
            match kv.2 with
            | ExportsEntryVal.objV fields =>
              match jsLookup typesKey fields with
              | some t => pathJoin packageDir t :: acc
              | none => acc
            | _ => acc)
          []
      else
        match jsLookup typesKey entries with
        | some (ExportsEntryVal.strV t) => [pathJoin packageDir t]
        | _ => []

/-- The `filePathsToBePatched` set precomputed across all workspace packages
(typecheck.ts lines 30-77). -/
def computeFilePathsToBePatched :
    List (Chars × PackageExportsVal) → Option (List Chars)
  | [] => some []
  | (dir, ex) :: rest =>
    match entryPointPathsOf dir ex, computeFilePathsToBePatched rest with
    | some here, some there => some (here ++ there)
    | _, _ => none

def scriptsIndexMarker : Chars := "./scripts/index.mts".data

def scriptsSeg : Chars := "/scripts/".data

def srcSeg : Chars := "/src/".data

def distTypecheckSeg : Chars := "/dist-typecheck/".data

/-- The patched `fs.readFileSync` installed by `typecheck`
(typecheck.ts lines 81-103). -/
def typecheckReadFileSync (fsys : FileSys) (filePathsToBePatched : List Chars)
    (p : Chars) : Option Chars :=
  if containsSub nodeModulesSeg p then readFile fsys p
  else if filePathsToBePatched.contains p then
    (readFile fsys p).map fun indexTsContents =>
      if containsSub scriptsIndexMarker indexTsContents then
        replaceFirst indexTsContents scriptsSeg distTypecheckSeg
      else replaceAll srcSeg distTypecheckSeg indexTsContents
  else readFile fsys p

/-! ## The summary-generation interception (`buildTypecheckFolder` in
`src/packages/tsmr/src/utils/typecheck.ts` lines 217-248) -/

def isWordChar (c : Char) : Bool := c.isAlphanum || c = '_'

/-- Whether `@ts-check` followed by a word boundary occurs at the head. -/
def atTsCheckBoundary : Chars → Bool
  | '@' :: 't' :: 's' :: '-' :: 'c' :: 'h' :: 'e' :: 'c' :: 'k' :: rest =>
    match rest with
    | [] => true
    | c :: _ => !isWordChar c
  | _ => false

/-- The regex search `/\/\/\s*@ts-check\b/.test(s)`: somewhere in `s`, `//`
followed by whitespace and `@ts-check` at a word boundary. -/
def tsCheckSearch : Chars → Bool
  | [] => false
  | c :: rest =>
    (c = '/' &&
      (match rest with
       | '/' :: r2 => atTsCheckBoundary (r2.dropWhile isJsSpace)
       | _ => false))
    || tsCheckSearch rest

/-- `hasTsCheckComment` (typecheck.ts lines 220-221). -/
def hasTsCheckComment (contents : Chars) : Bool :=
  tsCheckSearch (trimStartWs contents)

def tsCheckPat : Chars := "@ts-check".data

def tsNocheckPat : Chars := "@ts-nocheck".data

def tsNocheckLine : Chars := "// @ts-nocheck".data

/-- The content transformation of the summary-generation read
(typecheck.ts lines 228-244): shebang files get `// @ts-nocheck` as a new
second line (rewriting an existing `@ts-check` in the remainder); files with
an existing `@ts-check` comment get the first occurrence of `@ts-check`
rewritten in place; all other files get `// @ts-nocheck` prepended. -/
def injectTsNocheck (fileContents : Chars) : Chars :=
  if beginsWith '#' fileContents then
    let parts := splitChars '\n' fileContents
    let firstLine := parts.head!
    let remainingLinesString := joinChars '\n' parts.tail
    let remainingLinesString :=
      if hasTsCheckComment remainingLinesString then
        replaceFirst remainingLinesString tsCheckPat tsNocheckPat
      else remainingLinesString
    firstLine ++ '\n' :: (tsNocheckLine ++ '\n' :: remainingLinesString)
  else if hasTsCheckComment fileContents then
    replaceFirst fileContents tsCheckPat tsNocheckPat
  else tsNocheckLine ++ '\n' :: fileContents

/-- The extensions checked by the summary-generation read
(typecheck.ts line 227). -/
def tsNocheckExts : List Chars :=
  [".ts".data, ".tsx".data, ".mts".data, ".cts".data]

/-- The patched `fs.readFileSync` installed by `buildTypecheckFolder`
(typecheck.ts lines 219-248). -/
def buildTypecheckFolderReadFileSync (fsys : FileSys) (p : Chars) :
    Option Chars :=
  if tsNocheckExts.contains (extOf p) then
    (readFile fsys p).map injectTsNocheck
  else readFile fsys p

/-! ## Concrete fixtures used by closed theorems -/

def c1dir : Chars := "/w/packages/alpha".data

def c4ctx : Chars := "/p/src/a.ts".data

def c4other : Chars := "/p/src/b.ts".data

def c4lib : Chars := "/p/node_modules/typescript/lib/typescript.js".data

def c4libContent : Chars := "var x; readFile: readFile, more".data

def fsC4 : FileSys :=
  ⟨[(c4ctx, "import x from \x27~/y\x27".data),
    (c4other, "let b = 2".data),
    ("/p/tsconfig.json".data, "cfg".data),
    (c4lib, c4libContent)]⟩

def c4replacer : Chars → Chars → Chars := fun cfg c => cfg ++ c

def c5pkgs : List (Chars × PackageExportsVal) :=
  [("/p".data,
    PackageExportsVal.objTop
      [(".".data, ExportsEntryVal.objV [(typesKey, "./index.ts".data)])])]

def c5set : List Chars := ["/p/index.ts".data]

def c5content : Chars := "export * from \x27./scripts/index.mts\x27".data

def fsC5 : FileSys := ⟨[("/p/index.ts".data, c5content)]⟩

def c5wContent : Chars := "export * from \x27./src/index.js\x27".data

def fsC5w : FileSys := ⟨[("/p/index.ts".data, c5wContent)]⟩

def c6content : Chars := "const a = 1\n// @ts-check\nlet b = 2".data

def fsC6 : FileSys := ⟨[("/p/a.ts".data, c6content)]⟩

def c6shebangContent : Chars := "#!/usr/bin/env node\nlet b = 2".data

def fsC6w : FileSys := ⟨[("/p/cli.ts".data, c6shebangContent)]⟩

def c7lib : Chars := "/w/node_modules/typescript/lib/typescript.js".data

def c7dep : Chars := "/w/node_modules/lodash/index.js".data

def fsC7 : FileSys :=
  ⟨[(c7lib, "a readFile: readFile b".data),
    (c7dep, "module.exports = 1".data)]⟩

def c8pkg : PkgInfo := ⟨"alpha".data, "/w/packages/alpha".data, [], [], []⟩

def fsC8 : PkgFs := ⟨[], []⟩

def projA : Project := ⟨"/w/packages/a".data, some "@scope-a/foo".data⟩

def projB : Project := ⟨"/w/packages/b".data, some "@scope-b/foo".data⟩

def slugsMapAB : List (Chars × Project) := [("foo".data, projB)]

/-! ## Helper lemmas -/

theorem splitChars_ne_nil (sep : Char) : ∀ s : Chars, splitChars sep s ≠ []
  | [] => by simp [splitChars]
  | c :: rest => by
    by_cases h : c = sep
    · simp [splitChars, h]
    · have hr := splitChars_ne_nil sep rest
      cases he : splitChars sep rest with
      | nil => exact absurd he hr
      | cons l ls => simp [splitChars, h, he]

theorem splitChars_sep (sep : Char) (rest : Chars) :
    splitChars sep (sep :: rest) = [] :: splitChars sep rest := by
  simp [splitChars]

theorem splitChars_cons_ne (sep c : Char) (rest : Chars) (h : ¬c = sep) :
    ∃ l ls, splitChars sep rest = l :: ls ∧
      splitChars sep (c :: rest) = (c :: l) :: ls := by
  cases he : splitChars sep rest with
  | nil => exact absurd he (splitChars_ne_nil sep rest)
  | cons l ls => exact ⟨l, ls, rfl, by simp [splitChars, h, he]⟩

theorem sep_not_mem_of_mem_splitChars (sep : Char) :
    ∀ (s l : Chars), l ∈ splitChars sep s → sep ∉ l
  | [], l, hl => by
    simp [splitChars] at hl
    subst hl
    simp
  | c :: rest, l, hl => by
    by_cases h : c = sep
    · rw [h, splitChars_sep] at hl
      rcases List.mem_cons.mp hl with h1 | h2
      · subst h1; simp
      · exact sep_not_mem_of_mem_splitChars sep rest l h2
    · obtain ⟨l0, ls, hr, he⟩ := splitChars_cons_ne sep c rest h
      rw [he] at hl
      rcases List.mem_cons.mp hl with h1 | h2
      · subst h1
        intro hm
        rcases List.mem_cons.mp hm with h3 | h4
        · exact h h3.symm
        · exact sep_not_mem_of_mem_splitChars sep rest l0
            (by rw [hr]; exact List.mem_cons_self _ _) h4
      · exact sep_not_mem_of_mem_splitChars sep rest l
          (by rw [hr]; exact List.mem_cons_of_mem _ h2)

theorem splitChars_append (sep : Char) :
    ∀ (a b : Chars), sep ∉ a →
      splitChars sep (a ++ sep :: b) = a :: splitChars sep b
  | [], b, _ => by simpa using splitChars_sep sep b
  | c :: a', b, h => by
    have hc : ¬c = sep := fun e => h (by simp [e])
    have ih := splitChars_append sep a' b fun hm => h (List.mem_cons_of_mem _ hm)
    obtain ⟨l0, ls, hr, he⟩ :=
      splitChars_cons_ne sep c (a' ++ sep :: b) hc
    rw [ih] at hr
    injection hr with h1 h2
    subst h1
    subst h2
    simpa using he

theorem jsLookup_recordSet {α : Type} (m : List (Chars × α)) (k : Chars)
    (v : α) (s : Chars) :
    jsLookup s (recordSet m k v) = if k = s then some v else jsLookup s m := by
  induction m with
  | nil => simp [recordSet, jsLookup]
  | cons kv rest ih =>
    obtain ⟨k', v'⟩ := kv
    by_cases h1 : k' = k
    · subst h1
      by_cases h2 : k' = s <;> simp [recordSet, jsLookup, h2]
    · by_cases h2 : k' = s
      · subst h2
        have : ¬k = k' := fun e => h1 e.symm
        simp [recordSet, jsLookup, h1, this]
      · simp [recordSet, jsLookup, h1, h2, ih]

theorem find?_app {α : Type} (f : α → Bool) :
    ∀ l₁ l₂ : List α, (l₁ ++ l₂).find? f =
      match l₁.find? f with
      | some x => some x
      | none => l₂.find? f
  | [], _ => by simp
  | x :: l₁, l₂ => by
    by_cases h : f x = true
    · simp [List.find?, h]
    · have hx : f x = false := by simpa using h
      simp [List.find?, hx, find?_app f l₁ l₂]

/-! ## Claim theorems -/

/-- C1: evaluation of the code at the failing input.  After a scripts-skipped
install, `setupLintAndTypecheck` writes `JSON.stringify({ ignoredScripts:
true })` into `node_modules/metadata.json`, but `shouldPackageBeChecked`
reads the field `ignoreScripts`.  For a package whose `node_modules` exists
and holds exactly the marker the installer gate just wrote,
`shouldPackageBeChecked` therefore returns `true` (the package is checked),
not `false` as the claim states; it would return `false` only for a marker
spelled with the key it actually reads. -/
theorem C1_markerDoesNotGate :
    shouldPackageBeChecked
        ⟨[pathJoin c1dir nodeModulesName],
         [(pathJoin (pathJoin c1dir nodeModulesName) metadataJsonName,
           installerGateMarker)]⟩ c1dir = true ∧
    shouldPackageBeChecked
        ⟨[pathJoin c1dir nodeModulesName],
         [(pathJoin (pathJoin c1dir nodeModulesName) metadataJsonName,
           [(ignoreScriptsKey, true)])]⟩ c1dir = false := by
  decide

/-- C2 counterexample: the wrapped `ts.sys.readFile` has no try/finally, so
when the delegated read throws, the error propagates before the clearing
assignment runs — after the call the process-wide context still holds the
requested path instead of being cleared, refuting the claim that the context
is cleared on every exit path including thrown errors. -/
theorem C2_notClearedOnThrow :
    (narrowReadFile (fun _ => Except.error "ENOENT".data) ("/p/a.ts".data)
        none).2 ≠ none := by
  decide

/-- C2 (amended): the narrow interception sets the context to the requested
path, delegates to the real read, and clears the context back to empty on
the normal-return path, returning the delegate's result unchanged; when the
delegated read throws, the error propagates and the context is left holding
the requested path — it is not cleared on that exit path. -/
theorem C2_contextClearing (delegate : Chars → Except Chars (Option Chars))
    (p : Chars) (ctx0 : Option Chars) :
    (narrowReadFile delegate p ctx0).1 = delegate p ∧
    (narrowReadFile delegate p ctx0).2 =
      (match delegate p with
       | Except.ok _ => none
       | Except.error _ => some p) := by
  unfold narrowReadFile
  cases delegate p <;> simp

/-- C3 counterexample: the `buildTypecheckFolder` of
`src/packages/tsmr/src/utils/typecheck.ts` (one of the two code places the
claim cites) returns `exitCodePromise`, the compiler's own exit code — at a
compiler outcome of exit code 2 it returns 2, not 0, refuting the claim
that the summary-generation operation returns 0 for every outcome. -/
theorem C3_tsmrGenerationPropagates :
    buildTypecheckFolderExitTsmr (some 2) ≠ 0 := by
  decide

/-- C3 (amended): the third-generation `buildTypecheckFolder` (the variant
carried with `bin/tsmr.ts`, which manually returns `{ exitCode: 0 }`)
reports success regardless of the compiler's exit code, and the `typecheck`
command propagates the compiler's real exit code; the
`utils/typecheck.ts` generation's `buildTypecheckFolder`, by contrast,
propagates the compiler's exit code rather than always returning 0. -/
theorem C3_exitCodePolicy (a : Option Nat) (n : Nat) :
    buildTypecheckFolderExitV3 a = 0 ∧
    buildTypecheckFolderExitTsmr a = resolvedExitCode a ∧
    typecheckCommandExit true (some n) = n := by
  refine ⟨rfl, rfl, ?_⟩
  simp [typecheckCommandExit, typecheckExit, resolvedExitCode]

/-- C4 counterexample: the claim quantifies over every pair where one path
equals the context and the other does not; but the generic interception also
rewrites the compiler's own library file (which never equals the context,
since its extension is `.js`), so that latter path is not returned
byte-identical to its on-disk content. -/
theorem C4_libraryPathNotByteIdentical :
    tsExtensions.contains (extOf c4ctx) = true ∧
    c4lib ≠ c4ctx ∧
    patchEslintReadFileSync fsC4 (some c4ctx) (fun _ c => c) c4lib
      ≠ readFile fsC4 c4lib := by
  decide

/-- C4 (amended): given two paths where one equals the current context value
and has a recognized TypeScript extension (and does not lie under
`node_modules`, is not the compiler library path, is not a stubbed lint
configuration, and has an enclosing `tsconfig.json`), and the other differs
from the context value, is not the compiler library path, and is not a
stubbed lint configuration, the generic interception applies the alias
rewrite to the former and returns the latter byte-identical to its on-disk
content. -/
theorem C4_contextScoping (fsys : FileSys) (replacer : Chars → Chars → Chars)
    (ctxPath pOther cfg : Chars)
    (hext : tsExtensions.contains (extOf ctxPath) = true)
    (hnmF : containsSub nodeModulesSeg ctxPath = false)
    (hlibF : trailsWith tsLibSuffix ctxPath = false)
    (hstubF : shouldStubTsconfigLintJson fsys ctxPath = false)
    (hfind : findUp fsys tsconfigName (dirNameOf ctxPath) = some cfg)
    (hne : pOther ≠ ctxPath)
    (hlib : trailsWith tsLibSuffix pOther = false)
    (hstub : shouldStubTsconfigLintJson fsys pOther = false) :
    (∃ cfgUsed, patchEslintReadFileSync fsys (some ctxPath) replacer ctxPath
        = (readFile fsys ctxPath).map (replacer cfgUsed)) ∧
    patchEslintReadFileSync fsys (some ctxPath) replacer pOther
      = readFile fsys pOther := by
  constructor
  · refine ⟨if patchedExistsSync fsys
          (pathJoin (dirNameOf cfg) tsconfigTypecheckName) then
        pathJoin (dirNameOf cfg) tsconfigTypecheckName
      else cfg, ?_⟩
    simp only [patchEslintReadFileSync, hlibF, hnmF, hstubF, hext, hfind,
      Bool.false_eq_true, if_false, beq_self_eq_true, Bool.and_self,
      Bool.true_and, if_true]
  · have hne' : (some ctxPath == some pOther) = false := by
      have : ¬ctxPath = pOther := fun e => hne e.symm
      simpa using this
    cases hnm : containsSub nodeModulesSeg pOther with
    | true => simp [patchEslintReadFileSync, hlib, hnm]
    | false => simp [patchEslintReadFileSync, hlib, hnm, hstub, hne']

/-- C4 witness: the amended theorem applied at a concrete filesystem,
context file, and second file. -/
theorem C4_contextScoping_witness :
    (∃ cfgUsed, patchEslintReadFileSync fsC4 (some c4ctx) c4replacer c4ctx
        = (readFile fsC4 c4ctx).map (c4replacer cfgUsed)) ∧
    patchEslintReadFileSync fsC4 (some c4ctx) c4replacer c4other
      = readFile fsC4 c4other :=
  C4_contextScoping fsC4 c4replacer c4ctx c4other ("/p/tsconfig.json".data)
    (by decide) (by decide) (by decide) (by decide) (by decide)
    (by decide) (by decide) (by decide)

/-- C5 counterexample: for an entry-point path in the precomputed set whose
content mentions `./scripts/index.mts`, the patched read replaces
`/scripts/` (first occurrence) rather than performing the claimed
`/src/` to `/dist-typecheck/` substitution, so its result differs from the
substitution the claim describes. -/
theorem C5_scriptsSpecialCase :
    computeFilePathsToBePatched c5pkgs = some c5set ∧
    typecheckReadFileSync fsC5 c5set ("/p/index.ts".data)
      ≠ (readFile fsC5 ("/p/index.ts".data)).map
          (fun c => replaceAll srcSeg distTypecheckSeg c) := by
  decide

/-- C5 (amended): with the entry-point set precomputed from the workspace
manifests, every read of a path outside the set returns the file content
unmodified; a read of a path in the set (not under `node_modules`) whose
content does not mention `./scripts/index.mts` returns the content with
every `/src/` replaced by `/dist-typecheck/` — contents mentioning
`./scripts/index.mts` instead get their first `/scripts/` replaced. -/
theorem C5_substitutionExactlyOnSet (fsys : FileSys)
    (pkgs : List (Chars × PackageExportsVal)) (fps : List Chars)
    (p c : Chars)
    (_hcomp : computeFilePathsToBePatched pkgs = some fps) :
    (fps.contains p = false →
      typecheckReadFileSync fsys fps p = readFile fsys p) ∧
    (fps.contains p = true → containsSub nodeModulesSeg p = false →
      readFile fsys p = some c →
      containsSub scriptsIndexMarker c = false →
      typecheckReadFileSync fsys fps p
        = some (replaceAll srcSeg distTypecheckSeg c)) := by
  constructor
  · intro hout
    have hout' : p ∉ fps := by simpa using hout
    cases hnm : containsSub nodeModulesSeg p with
    | true => simp [typecheckReadFileSync, hnm]
    | false => simp [typecheckReadFileSync, hnm, hout']
  · intro hin hnm hc hscr
    have hin' : p ∈ fps := by simpa using hin
    simp [typecheckReadFileSync, hnm, hin', hc, hscr]

/-- C5 witness: the amended theorem applied at a concrete filesystem whose
entry-point content has no `./scripts/index.mts` mention. -/
theorem C5_substitutionExactlyOnSet_witness :
    typecheckReadFileSync fsC5w c5set ("/q/other.ts".data)
      = readFile fsC5w ("/q/other.ts".data) ∧
    typecheckReadFileSync fsC5w c5set ("/p/index.ts".data)
      = some (replaceAll srcSeg distTypecheckSeg c5wContent) :=
  ⟨(C5_substitutionExactlyOnSet fsC5w c5pkgs c5set ("/q/other.ts".data)
      c5wContent (by decide)).1 (by decide),
   (C5_substitutionExactlyOnSet fsC5w c5pkgs c5set ("/p/index.ts".data)
      c5wContent (by decide)).2 (by decide) (by decide) (by decide)
      (by decide)⟩

/-- C6 counterexample: for a file with no interpreter line that already
contains a `// @ts-check` comment, the patched read rewrites that comment in
place instead of injecting `// @ts-nocheck` as the first line — the returned
content's first line is not the marker and the content is not the
marker-prepended text the claim describes. -/
theorem C6_existingTsCheckNotFirstLine :
    beginsWith '#' c6content = false ∧
    buildTypecheckFolderReadFileSync fsC6 ("/p/a.ts".data)
      ≠ some (tsNocheckLine ++ '\n' :: c6content) ∧
    (buildTypecheckFolderReadFileSync fsC6 ("/p/a.ts".data)).map
        (fun r => (splitChars '\n' r).head!) ≠ some tsNocheckLine := by
  decide

/-- C6 (amended): for every readable file with a recognized TypeScript
extension, the patched read returns the transformed content; if the file
begins with an interpreter line, the marker becomes the new second line and
the first line is preserved verbatim; otherwise, if the file has no
`@ts-check` comment the marker is prepended as the first line, and if it has
one, the first occurrence of `@ts-check` is rewritten to `@ts-nocheck` in
place (the marker is not injected as a new first line in that case). -/
theorem C6_markerInjection (fsys : FileSys) (p c : Chars)
    (hext : tsNocheckExts.contains (extOf p) = true)
    (hread : readFile fsys p = some c) :
    buildTypecheckFolderReadFileSync fsys p = some (injectTsNocheck c) ∧
    (beginsWith '#' c = true →
      (splitChars '\n' (injectTsNocheck c)).head?
          = (splitChars '\n' c).head? ∧
      (splitChars '\n' (injectTsNocheck c))[1]? = some tsNocheckLine) ∧
    (beginsWith '#' c = false → hasTsCheckComment c = false →
      injectTsNocheck c = tsNocheckLine ++ '\n' :: c) ∧
    (beginsWith '#' c = false → hasTsCheckComment c = true →
      injectTsNocheck c = replaceFirst c tsCheckPat tsNocheckPat) := by
  refine ⟨?_, ?_, ?_, ?_⟩
  · have hext' : extOf p ∈ tsNocheckExts := by simpa using hext
    simp [buildTypecheckFolderReadFileSync, hext', hread]
  · intro hsh
    cases hc : splitChars '\n' c with
    | nil => exact absurd hc (splitChars_ne_nil '\n' c)
    | cons l ls =>
      have hlnl : '\n' ∉ l :=
        sep_not_mem_of_mem_splitChars '\n' c l
          (by rw [hc]; exact List.mem_cons_self _ _)
      have hmark : ('\n' : Char) ∉ tsNocheckLine := by decide
      have hinj : injectTsNocheck c
          = l ++ '\n' :: (tsNocheckLine ++ '\n' ::
              (if hasTsCheckComment (joinChars '\n' ls) then
                replaceFirst (joinChars '\n' ls) tsCheckPat tsNocheckPat
              else joinChars '\n' ls)) := by
        simp [injectTsNocheck, hsh, hc]
      rw [hinj, splitChars_append '\n' l _ hlnl,
        splitChars_append '\n' tsNocheckLine _ hmark]
      simp
  · intro hsh hts
    simp [injectTsNocheck, hsh, hts]
  · intro hsh hts
    simp [injectTsNocheck, hsh, hts]

/-- C6 witness: the amended theorem applied to a concrete shebang file — its
first line is preserved and the marker is the new second line. -/
theorem C6_markerInjection_witness :
    buildTypecheckFolderReadFileSync fsC6w ("/p/cli.ts".data)
      = some (injectTsNocheck c6shebangContent) ∧
    (splitChars '\n' (injectTsNocheck c6shebangContent))[1]?
      = some tsNocheckLine :=
  ⟨(C6_markerInjection fsC6w ("/p/cli.ts".data) c6shebangContent
      (by decide) (by decide)).1,
   ((C6_markerInjection fsC6w ("/p/cli.ts".data) c6shebangContent
      (by decide) (by decide)).2.1 (by decide)).2⟩

/-- C7 counterexample: the path of the compiler's own library file lies
under `node_modules`, yet the generic interception returns it with the
narrow-interception wrapper spliced in, not unmodified, refuting the claim
for that path. -/
theorem C7_libraryPathModified :
    containsSub nodeModulesSeg c7lib = true ∧
    patchEslintReadFileSync fsC7 none (fun _ c => c) c7lib
      ≠ readFile fsC7 c7lib := by
  decide

/-- C7 (amended): every requested path containing `/node_modules/`, except
the one ending in `/node_modules/typescript/lib/typescript.js` (which is
rewritten to install the narrow interception), is delegated to the real read
and returned unmodified. -/
theorem C7_nodeModulesDelegates (fsys : FileSys) (ctx : Option Chars)
    (replacer : Chars → Chars → Chars) (p : Chars)
    (hnm : containsSub nodeModulesSeg p = true)
    (hlib : trailsWith tsLibSuffix p = false) :
    patchEslintReadFileSync fsys ctx replacer p = readFile fsys p := by
  simp [patchEslintReadFileSync, hlib, hnm]

/-- C7 witness: the amended theorem applied to a concrete third-party
dependency file. -/
theorem C7_nodeModulesDelegates_witness :
    patchEslintReadFileSync fsC7 none (fun _ c => c) c7dep
      = readFile fsC7 c7dep :=
  C7_nodeModulesDelegates fsC7 none (fun _ c => c) c7dep
    (by decide) (by decide)

/-- C8 counterexample: a package declaring zero dependencies of any kind
whose `node_modules` directory is absent (the code's own comment notes such
packages never get one) is reported not-to-check by the readiness gate, so
its lint/typecheck IS skipped — refuting the claim that it is never
skipped. -/
theorem C8_zeroDepsSkipped :
    hasNoDeclaredDeps c8pkg = true ∧
    shouldPackageBeChecked fsC8 c8pkg.dir = false := by
  decide

/-- C8 (amended): a package that declares zero dependencies of any kind is
never recorded for installation by `setupLintAndTypecheck`; but
`shouldPackageBeChecked` ignores dependency declarations, so the readiness
gate still skips such a package's lint/typecheck whenever its dependency
directory is absent. -/
theorem C8_zeroDepsNeverRecorded (fsys : PkgFs) (pkgs : List PkgInfo)
    (p : PkgInfo) (hz : hasNoDeclaredDeps p = true) :
    p ∉ packagesWithoutNodeModules fsys pkgs ∧
    (pkgExists fsys (pathJoin p.dir nodeModulesName) = false →
      shouldPackageBeChecked fsys p.dir = false) := by
  constructor
  · intro hmem
    have hp := (List.mem_filter.mp hmem).2
    rw [hz] at hp
    simp at hp
  · intro habs
    simp [shouldPackageBeChecked, habs]

/-- C8 witness: the amended theorem applied to a concrete zero-dependency
package and an empty filesystem. -/
theorem C8_zeroDepsNeverRecorded_witness :
    c8pkg ∉ packagesWithoutNodeModules fsC8 [c8pkg] ∧
    shouldPackageBeChecked fsC8 c8pkg.dir = false :=
  ⟨(C8_zeroDepsNeverRecorded fsC8 [c8pkg] c8pkg (by decide)).1,
   (C8_zeroDepsNeverRecorded fsC8 [c8pkg] c8pkg (by decide)).2 (by decide)⟩

/-- The slug-map loop resolves a lookup to the last enumerated package whose
name matches the slug, falling back to the accumulator. -/
theorem buildSlugsMapAux_lookup (s : Chars) :
    ∀ (pkgs : List Project) (acc m : List (Chars × Project)),
      buildSlugsMapAux acc pkgs = Except.ok m →
      jsLookup s m =
        (match pkgs.reverse.find? (slugMatches s) with
         | some q => some q
         | none => jsLookup s acc)
  | [], acc, m, h => by
    simp [buildSlugsMapAux] at h
    subst h
    simp
  | wp :: rest, acc, m, h => by
    cases hn : wp.manifestName with
    | none => simp [buildSlugsMapAux, hn] at h
    | some nm =>
      simp only [buildSlugsMapAux, hn] at h
      have ih := buildSlugsMapAux_lookup s rest
        (recordSet acc (getPackageSlug nm) wp) m h
      rw [ih, List.reverse_cons, find?_app]
      cases hf : rest.reverse.find? (slugMatches s) with
      | some q => simp
      | none =>
        rw [jsLookup_recordSet]
        by_cases he : getPackageSlug nm = s
        · have hm : slugMatches s wp = true := by simp [slugMatches, hn, he]
          simp [List.find?, hm, he]
        · have hm : slugMatches s wp = false := by simp [slugMatches, hn, he]
          simp [List.find?, hm, he]

/-- C9: the slug registry keys every workspace package by the final
'/'-separated segment of its manifest name, with plain object assignment, so
a lookup resolves to the last enumerated package whose name has that final
segment — when two packages' names share a final segment, the slug is bound
to only the later one, and `getPackageDir` for that slug resolves to that
single package without reporting any error. -/
theorem C9_lastPackageWins (pkgs : List Project) (m : List (Chars × Project))
    (h : getWorkspacePackageSlugsMap pkgs = Except.ok m) (s : Chars) :
    jsLookup s m = pkgs.reverse.find? (slugMatches s) ∧
    getPackageDirE m s =
      (match pkgs.reverse.find? (slugMatches s) with
       | some q => Except.ok q.dir
       | none => Except.error s) := by
  have h1 := buildSlugsMapAux_lookup s pkgs [] m h
  have h2 : jsLookup s m = pkgs.reverse.find? (slugMatches s) := by
    rw [h1]
    cases pkgs.reverse.find? (slugMatches s) <;> simp [jsLookup]
  refine ⟨h2, ?_⟩
  rw [getPackageDirE, h2]

/-- C9 witness: two concrete packages whose names share the final segment
`foo`; the map binds `foo` to the later-enumerated one and the directory
lookup silently resolves to it. -/
theorem C9_lastPackageWins_witness :
    jsLookup ("foo".data) slugsMapAB = some projB ∧
    getPackageDirE slugsMapAB ("foo".data) = Except.ok projB.dir := by
  have h := C9_lastPackageWins [projA, projB] slugsMapAB (by rfl) ("foo".data)
  exact ⟨h.1.trans (by rfl), h.2.trans (by rfl)⟩

/-- C10: evaluation at the failing input.  Each call to `patchEslint`
creates a fresh `Symbol('tsmr-patched')`, so the guard test
`(fs)[tsMonorepoPatchedSymbol]` is always unset: a second call in the same
process does not observe the first call's mark and installs the wrappers
again — after two calls the real `fs.readFileSync` is wrapped twice, where
the claim says every call after the first returns without re-wrapping. -/
theorem C10_guardNeverFires :
    (patchEslintCalls 1 initialPatchState).wrapDepth = 1 ∧
    (patchEslintCalls 2 initialPatchState).wrapDepth = 2 := by
  decide
